import Mathlib

/-!
Verification of the WiFiCreds credential-table accessor
(src/WiFiCreds.h, src/WiFiCreds.cpp, src/credentials.h).

Embedding conventions:
* A C string pointer `const char*` that may be null is modelled as
  `Option String`; `none` is the null pointer, `some s` a string.
  `strcmp(a, b) == 0` on non-null pointers is string equality.
* The global array `CREDENTIAL_SETS` is modelled as a total function
  `Nat → CredentialSet`; the code only ever reads indices up to the first
  sentinel (or the safety bound 1000), so entries past the sentinel are
  irrelevant to every operation. The theorems are stated for an arbitrary
  table, and the concrete table of credentials.h is given below as a
  witness table.
* The `while` loop of getCredentialCount increments `count` starting at 0
  under the guard `count < 1000`, so it runs at most 1000 iterations; it is
  embedded with structural fuel 1000, which by that guard can never be
  exhausted before the guard fails. Likewise the `for` loop of
  findCredential runs exactly `count` iterations and is embedded with
  fuel `count`.
-/

/-- One named set of Wi-Fi credentials (struct CredentialSet of
WiFiCreds.h). Each field is a possibly-null C string. -/
structure CredentialSet where
  name : Option String
  ssid : Option String
  password : Option String
deriving DecidableEq, Repr

/-- A credential table: the global array CREDENTIAL_SETS, modelled as a
total function from indices. -/
def CredTable : Type := Nat → CredentialSet

namespace WiFiCreds

/-- The while loop of getCredentialCount:
`while (count < 1000 && CREDENTIAL_SETS[count].name != nullptr) count++;`
embedded with structural fuel. With fuel 1000 and initial count 0 the fuel
never runs out before the guard `count < 1000` fails. -/
def getCredentialCountAux (table : CredTable) : Nat → Nat → Nat
  | 0, count => count
  | fuel + 1, count =>
    if count < 1000 ∧ (table count).name ≠ none then
      getCredentialCountAux table fuel (count + 1)
    else
      count

/-- WiFiCreds::getCredentialCount: count entries until the terminator
(name is null), with a safety limit of 1000. -/
def getCredentialCount (table : CredTable) : Nat :=
  getCredentialCountAux table 1000 0

/-- The for loop of WiFiCreds::findCredential:
`for (i = 0; i < count; i++) if (strcmp(CREDENTIAL_SETS[i].name, name) == 0) return &CREDENTIAL_SETS[i];`
embedded with fuel equal to the number of remaining iterations. All
indices visited are below the scanned count, where the name field is
non-null, so the strcmp of the two non-null strings is string equality. -/
def findCredentialAux (table : CredTable) (name : String) : Nat → Nat → Option CredentialSet
  | 0, _ => none
  | fuel + 1, i =>
    if (table i).name = some name then
      some (table i)
    else
      findCredentialAux table name fuel (i + 1)

/-- WiFiCreds::findCredential: null name gives null; otherwise linear scan
of the first getCredentialCount entries, first match returned. -/
def findCredential (table : CredTable) (name : Option String) : Option CredentialSet :=
  match name with
  | none => none
  | some n => findCredentialAux table n (getCredentialCount table) 0

/-- WiFiCreds::getDefaultCredential: the record at index 0 when the table
has at least one real record, else null. -/
def getDefaultCredential (table : CredTable) : Option CredentialSet :=
  if getCredentialCount table > 0 then some (table 0) else none

/-- WiFiCreds::getSSID: resolve a record (find by name when a name is
given, else the default; fall back to the default when a supplied name
found nothing), then return its ssid field, or null if no record. -/
def getSSID (table : CredTable) (name : Option String) : Option String :=
  let cred₀ := match name with
    | some _ => findCredential table name
    | none => getDefaultCredential table
  let cred := if cred₀ = none ∧ name ≠ none then getDefaultCredential table else cred₀
  match cred with
  | some c => c.ssid
  | none => none

/-- WiFiCreds::getPassword: same resolution as getSSID, returning the
password field. -/
def getPassword (table : CredTable) (name : Option String) : Option String :=
  let cred₀ := match name with
    | some _ => findCredential table name
    | none => getDefaultCredential table
  let cred := if cred₀ = none ∧ name ≠ none then getDefaultCredential table else cred₀
  match cred with
  | some c => c.password
  | none => none

/-- WiFiCreds::isValid: both getSSID and getPassword non-null and of
non-zero length (strlen counts zero exactly on the empty string, as does
String.length). -/
def isValid (table : CredTable) (name : Option String) : Bool :=
  let ssid := getSSID table name
  let password := getPassword table name
  match ssid, password with
  | none, _ => false
  | _, none => false
  | some s, some p => if s.length = 0 ∨ p.length = 0 then false else true

/-- WiFiCreds::getCredentialName: the name at the given index when it is
below getCredentialCount, else null. -/
def getCredentialName (table : CredTable) (index : Nat) : Option String :=
  let totalCount := getCredentialCount table
  if index < totalCount then (table index).name else none

/-- WiFiCreds::hasCredential: false on a null name, otherwise whether
findCredential found a record. -/
def hasCredential (table : CredTable) (name : Option String) : Bool :=
  match name with
  | none => false
  | some _ => (findCredential table name).isSome

/-- WiFiCreds::getDefaultName: the name at index 0. -/
def getDefaultName (table : CredTable) : Option String :=
  getCredentialName table 0

end WiFiCreds

/-- The concrete table of src/credentials.h: four named records followed
by the terminator entry. Indices past the terminator are never read by
any operation; they are modelled as repeating the terminator. -/
def CREDENTIAL_SETS : CredTable := fun i =>
  match i with
  | 0 => ⟨some "home", some "MyHomeWiFi", some "HomePassword123"⟩
  | 1 => ⟨some "office", some "OfficeNetwork", some "OfficePassword456"⟩
  | 2 => ⟨some "guest", some "GuestWiFi", some "GuestPassword789"⟩
  | 3 => ⟨some "mobile", some "MyPhoneHotspot", some "MobilePassword"⟩
  | _ => ⟨none, none, none⟩

/-- The position of the terminating sentinel: every record strictly before
index k has a non-null name, and the record at k has a null name (spec
section 3 invariant: a table terminated by one sentinel record). -/
def SentinelAt (table : CredTable) (k : Nat) : Prop :=
  (∀ i, i < k → (table i).name ≠ none) ∧ (table k).name = none

/-- Modelled from the spec, section 4.1, resolution steps 1 to 3 of
getSSID and getPassword: if the name is absent use defaultRecord; if a
name is present use find; if find yields not-found while a name was
present, fall back to defaultRecord. Used to state the refinement claims
about the resolution policy. -/
def specResolve (table : CredTable) (name : Option String) : Option CredentialSet :=
  match name with
  | none => WiFiCreds.getDefaultCredential table
  | some n =>
    match WiFiCreds.findCredential table (some n) with
    | some r => some r
    | none => WiFiCreds.getDefaultCredential table

/-- The record resolution shared by the bodies of getSSID and getPassword
(the local variable cred of both functions). -/
def resolveCred (table : CredTable) (name : Option String) : Option CredentialSet :=
  let cred₀ := match name with
    | some _ => WiFiCreds.findCredential table name
    | none => WiFiCreds.getDefaultCredential table
  if cred₀ = none ∧ name ≠ none then WiFiCreds.getDefaultCredential table else cred₀

namespace WiFiCreds

theorem countAux_le_1000 (table : CredTable) (fuel : Nat) :
    ∀ count, count ≤ 1000 → getCredentialCountAux table fuel count ≤ 1000 := by
  induction fuel with
  | zero => intro count h; exact h
  | succ fuel ih =>
    intro count h
    unfold getCredentialCountAux
    split
    · next hc => exact ih (count + 1) hc.1
    · exact h

theorem le_countAux (table : CredTable) (fuel : Nat) :
    ∀ count, count ≤ getCredentialCountAux table fuel count := by
  induction fuel with
  | zero => intro count; exact Nat.le_refl _
  | succ fuel ih =>
    intro count
    unfold getCredentialCountAux
    split
    · exact Nat.le_trans (Nat.le_succ count) (ih (count + 1))
    · exact Nat.le_refl _

theorem countAux_name_ne_none (table : CredTable) (fuel : Nat) :
    ∀ count i, count ≤ i → i < getCredentialCountAux table fuel count →
      (table i).name ≠ none := by
  induction fuel with
  | zero =>
    intro count i hci hi
    exact absurd hi (Nat.not_lt.mpr hci)
  | succ fuel ih =>
    intro count i hci hi
    unfold getCredentialCountAux at hi
    by_cases hg : count < 1000 ∧ (table count).name ≠ none
    · rw [if_pos hg] at hi
      rcases Nat.eq_or_lt_of_le hci with he | hlt
      · exact he ▸ hg.2
      · exact ih (count + 1) i hlt hi
    · rw [if_neg hg] at hi
      exact absurd hi (Nat.not_lt.mpr hci)

theorem countAux_le_sentinel (table : CredTable) (fuel : Nat) :
    ∀ count m, count ≤ m → (table m).name = none →
      getCredentialCountAux table fuel count ≤ m := by
  induction fuel with
  | zero => intro count m h _; exact h
  | succ fuel ih =>
    intro count m hcm hm
    unfold getCredentialCountAux
    split
    · next hg =>
      have hne : count ≠ m := fun he => hg.2 (he ▸ hm)
      exact ih (count + 1) m (Nat.lt_of_le_of_ne hcm hne) hm
    · exact hcm

theorem le_countAux_of_names (table : CredTable) (fuel : Nat) :
    ∀ count k, k ≤ count + fuel → k ≤ 1000 →
      (∀ i, count ≤ i → i < k → (table i).name ≠ none) →
      k ≤ getCredentialCountAux table fuel count := by
  induction fuel with
  | zero => intro count k hf _ _; simpa using hf
  | succ fuel ih =>
    intro count k hf hk hnames
    by_cases hck : count < k
    · have hg : count < 1000 ∧ (table count).name ≠ none :=
        ⟨Nat.lt_of_lt_of_le hck hk, hnames count (Nat.le_refl _) hck⟩
      unfold getCredentialCountAux
      rw [if_pos hg]
      exact ih (count + 1) k (by omega) hk (fun i hi hik => hnames i (by omega) hik)
    · exact Nat.le_trans (Nat.not_lt.mp hck) (le_countAux table (fuel + 1) count)

theorem getCredentialCount_le_1000 (table : CredTable) :
    getCredentialCount table ≤ 1000 :=
  countAux_le_1000 table 1000 0 (by omega)

theorem name_ne_none_of_lt_count (table : CredTable) (i : Nat)
    (h : i < getCredentialCount table) : (table i).name ≠ none :=
  countAux_name_ne_none table 1000 0 i (Nat.zero_le _) h

theorem count_eq_of_sentinelAt (table : CredTable) (k : Nat)
    (hs : SentinelAt table k) (hk : k ≤ 1000) : getCredentialCount table = k :=
  Nat.le_antisymm
    (countAux_le_sentinel table 1000 0 k (Nat.zero_le _) hs.2)
    (le_countAux_of_names table 1000 0 k (by omega) hk (fun i _ hik => hs.1 i hik))

theorem count_eq_1000_of_allNamed (table : CredTable)
    (h : ∀ i, i < 1000 → (table i).name ≠ none) : getCredentialCount table = 1000 :=
  Nat.le_antisymm (getCredentialCount_le_1000 table)
    (le_countAux_of_names table 1000 0 1000 (by omega) (by omega) (fun i _ hik => h i hik))

theorem findAux_eq_none (table : CredTable) (n : String) (fuel : Nat) :
    ∀ i, (∀ j, i ≤ j → j < i + fuel → (table j).name ≠ some n) →
      findCredentialAux table n fuel i = none := by
  induction fuel with
  | zero => intro i _; rfl
  | succ fuel ih =>
    intro i h
    unfold findCredentialAux
    rw [if_neg (h i (Nat.le_refl _) (by omega))]
    exact ih (i + 1) (fun j h1 h2 => h j (by omega) (by omega))

theorem findAux_first (table : CredTable) (n : String) (fuel : Nat) :
    ∀ i m, i ≤ m → m < i + fuel → (table m).name = some n →
      (∀ j, i ≤ j → j < m → (table j).name ≠ some n) →
      findCredentialAux table n fuel i = some (table m) := by
  induction fuel with
  | zero => intro i m h1 h2 _ _; exact absurd h2 (by omega)
  | succ fuel ih =>
    intro i m him hm hname hfirst
    unfold findCredentialAux
    by_cases hi : (table i).name = some n
    · rw [if_pos hi]
      have he : i = m := by
        by_contra hne
        exact hfirst i (Nat.le_refl _) (Nat.lt_of_le_of_ne him hne) hi
      rw [he]
    · rw [if_neg hi]
      have hlt : i < m := Nat.lt_of_le_of_ne him (by rintro rfl; exact hi hname)
      exact ih (i + 1) m hlt (by omega) hname (fun j h1 h2 => hfirst j (by omega) h2)

theorem findAux_some_spec (table : CredTable) (n : String) (fuel : Nat) :
    ∀ i r, findCredentialAux table n fuel i = some r →
      ∃ m, i ≤ m ∧ m < i + fuel ∧ r = table m ∧ (table m).name = some n := by
  induction fuel with
  | zero => intro i r h; exact absurd h (by simp [findCredentialAux])
  | succ fuel ih =>
    intro i r h
    unfold findCredentialAux at h
    by_cases hi : (table i).name = some n
    · rw [if_pos hi] at h
      exact ⟨i, Nat.le_refl _, by omega, (Option.some.inj h).symm, hi⟩
    · rw [if_neg hi] at h
      obtain ⟨m, h1, h2, h3, h4⟩ := ih (i + 1) r h
      exact ⟨m, by omega, by omega, h3, h4⟩

theorem findCredential_none_of_absent (table : CredTable) (n : String)
    (h : ∀ i, i < getCredentialCount table → (table i).name ≠ some n) :
    findCredential table (some n) = none :=
  findAux_eq_none table n (getCredentialCount table) 0 (fun j _ h2 => h j (by omega))

theorem findCredential_first (table : CredTable) (n : String) (m : Nat)
    (hm : m < getCredentialCount table) (hname : (table m).name = some n)
    (hfirst : ∀ j, j < m → (table j).name ≠ some n) :
    findCredential table (some n) = some (table m) :=
  findAux_first table n (getCredentialCount table) 0 m (Nat.zero_le _) (by omega) hname
    (fun j _ h2 => hfirst j h2)

theorem findCredential_some_spec (table : CredTable) (n : String) (r : CredentialSet)
    (h : findCredential table (some n) = some r) :
    ∃ m, m < getCredentialCount table ∧ r = table m ∧ (table m).name = some n := by
  obtain ⟨m, _, h2, h3, h4⟩ := findAux_some_spec table n (getCredentialCount table) 0 r h
  exact ⟨m, by omega, h3, h4⟩

theorem getDefaultCredential_some (table : CredTable) (r : CredentialSet)
    (h : getDefaultCredential table = some r) :
    0 < getCredentialCount table ∧ r = table 0 := by
  unfold getDefaultCredential at h
  split at h
  · next hc => exact ⟨hc, (Option.some.inj h).symm⟩
  · exact absurd h (by simp)

theorem getDefaultCredential_eq_none_iff (table : CredTable) :
    getDefaultCredential table = none ↔ getCredentialCount table = 0 := by
  constructor
  · intro h
    unfold getDefaultCredential at h
    by_cases hc : getCredentialCount table > 0
    · rw [if_pos hc] at h
      exact absurd h (by simp)
    · omega
  · intro h
    unfold getDefaultCredential
    rw [if_neg (by omega)]

theorem getSSID_eq_resolve (table : CredTable) (name : Option String) :
    getSSID table name = (resolveCred table name).bind CredentialSet.ssid := by
  show (match resolveCred table name with | some c => c.ssid | none => none)
      = (resolveCred table name).bind CredentialSet.ssid
  cases resolveCred table name <;> rfl

theorem getPassword_eq_resolve (table : CredTable) (name : Option String) :
    getPassword table name = (resolveCred table name).bind CredentialSet.password := by
  show (match resolveCred table name with | some c => c.password | none => none)
      = (resolveCred table name).bind CredentialSet.password
  cases resolveCred table name <;> rfl

theorem resolveCred_eq_specResolve (table : CredTable) (name : Option String) :
    resolveCred table name = specResolve table name := by
  cases name with
  | none => simp [resolveCred, specResolve]
  | some n =>
    cases h : findCredential table (some n) with
    | none => simp [resolveCred, specResolve, h]
    | some r => simp [resolveCred, specResolve, h]

theorem resolveCred_mem (table : CredTable) (name : Option String) (r : CredentialSet)
    (h : resolveCred table name = some r) :
    ∃ i, i < getCredentialCount table ∧ r = table i := by
  cases name with
  | none =>
    have h' : getDefaultCredential table = some r := by simpa [resolveCred] using h
    obtain ⟨h1, h2⟩ := getDefaultCredential_some table r h'
    exact ⟨0, h1, h2⟩
  | some n =>
    cases hf : findCredential table (some n) with
    | none =>
      have h' : getDefaultCredential table = some r := by simpa [resolveCred, hf] using h
      obtain ⟨h1, h2⟩ := getDefaultCredential_some table r h'
      exact ⟨0, h1, h2⟩
    | some r₀ =>
      have hr : r₀ = r := by simpa [resolveCred, hf] using h
      obtain ⟨m, hm, h3, _⟩ := findCredential_some_spec table n r₀ hf
      exact ⟨m, hm, hr ▸ h3⟩

theorem resolveCred_eq_none_iff (table : CredTable) (name : Option String) :
    resolveCred table name = none ↔ getCredentialCount table = 0 := by
  cases name with
  | none => simpa [resolveCred] using getDefaultCredential_eq_none_iff table
  | some n =>
    cases hf : findCredential table (some n) with
    | none => simpa [resolveCred, hf] using getDefaultCredential_eq_none_iff table
    | some r₀ =>
      obtain ⟨m, hm, _, _⟩ := findCredential_some_spec table n r₀ hf
      simp only [resolveCred, hf]
      constructor
      · intro h
        split at h
        · next hc => simp [hf] at hc
        · exact absurd h (by simp)
      · intro h
        omega

theorem getSSID_eq_none_iff (table : CredTable) (name : Option String)
    (hwf : ∀ i, i < getCredentialCount table → (table i).ssid ≠ none) :
    (getSSID table name = none ↔ getCredentialCount table = 0) := by
  rw [getSSID_eq_resolve]
  cases hr : resolveCred table name with
  | none => simpa using (resolveCred_eq_none_iff table name).mp hr
  | some r =>
    obtain ⟨i, hi, hri⟩ := resolveCred_mem table name r hr
    show r.ssid = none ↔ getCredentialCount table = 0
    constructor
    · intro h
      exact absurd (hri ▸ h) (hwf i hi)
    · intro h
      omega

theorem getPassword_eq_none_iff (table : CredTable) (name : Option String)
    (hwf : ∀ i, i < getCredentialCount table → (table i).password ≠ none) :
    (getPassword table name = none ↔ getCredentialCount table = 0) := by
  rw [getPassword_eq_resolve]
  cases hr : resolveCred table name with
  | none => simpa using (resolveCred_eq_none_iff table name).mp hr
  | some r =>
    obtain ⟨i, hi, hri⟩ := resolveCred_mem table name r hr
    show r.password = none ↔ getCredentialCount table = 0
    constructor
    · intro h
      exact absurd (hri ▸ h) (hwf i hi)
    · intro h
      omega

end WiFiCreds

/-- A string has length zero exactly when it is the empty string (strlen
returns 0 only on the empty C string). -/
theorem string_length_eq_zero_iff (s : String) : s.length = 0 ↔ s = "" := by
  cases s with
  | mk data =>
    cases data with
    | nil => simp
    | cons c cs =>
      simp only [String.length]
      constructor
      · intro h
        simp at h
      · intro h
        have hd : (String.mk (c :: cs)).data = ("" : String).data := by rw [h]
        simp at hd

/-- C1: for every input name, getSSID and getPassword follow the four-step
resolution policy of the spec: an absent name resolves via defaultRecord,
a present name via find with fallback to defaultRecord on not-found, and
the resolved record supplies the returned ssid and password; not-found
(null) comes back exactly when no record resolved, which happens exactly
on the empty table. The null-iff-empty equivalences use the spec data
model invariant that real records carry non-null ssid and password. -/
theorem C1_resolution_policy (table : CredTable) (name : Option String)
    (hwf : ∀ i, i < WiFiCreds.getCredentialCount table →
      (table i).ssid ≠ none ∧ (table i).password ≠ none) :
    WiFiCreds.getSSID table name = (specResolve table name).bind CredentialSet.ssid ∧
    WiFiCreds.getPassword table name = (specResolve table name).bind CredentialSet.password ∧
    (specResolve table name = none ↔ WiFiCreds.getCredentialCount table = 0) ∧
    (WiFiCreds.getSSID table name = none ↔ WiFiCreds.getCredentialCount table = 0) ∧
    (WiFiCreds.getPassword table name = none ↔ WiFiCreds.getCredentialCount table = 0) := by
  refine ⟨?_, ?_, ?_, ?_, ?_⟩
  · rw [WiFiCreds.getSSID_eq_resolve, WiFiCreds.resolveCred_eq_specResolve]
  · rw [WiFiCreds.getPassword_eq_resolve, WiFiCreds.resolveCred_eq_specResolve]
  · rw [← WiFiCreds.resolveCred_eq_specResolve]
    exact WiFiCreds.resolveCred_eq_none_iff table name
  · exact WiFiCreds.getSSID_eq_none_iff table name (fun i hi => (hwf i hi).1)
  · exact WiFiCreds.getPassword_eq_none_iff table name (fun i hi => (hwf i hi).2)

/-- C1 witness: the resolution-policy theorem at the concrete table of
credentials.h with the name office. -/
theorem C1_witness :
    (∀ i, i < WiFiCreds.getCredentialCount CREDENTIAL_SETS →
      (CREDENTIAL_SETS i).ssid ≠ none ∧ (CREDENTIAL_SETS i).password ≠ none) ∧
    (WiFiCreds.getSSID CREDENTIAL_SETS (some "office")
        = (specResolve CREDENTIAL_SETS (some "office")).bind CredentialSet.ssid ∧
      WiFiCreds.getPassword CREDENTIAL_SETS (some "office")
        = (specResolve CREDENTIAL_SETS (some "office")).bind CredentialSet.password ∧
      (specResolve CREDENTIAL_SETS (some "office") = none ↔
        WiFiCreds.getCredentialCount CREDENTIAL_SETS = 0) ∧
      (WiFiCreds.getSSID CREDENTIAL_SETS (some "office") = none ↔
        WiFiCreds.getCredentialCount CREDENTIAL_SETS = 0) ∧
      (WiFiCreds.getPassword CREDENTIAL_SETS (some "office") = none ↔
        WiFiCreds.getCredentialCount CREDENTIAL_SETS = 0)) :=
  ⟨by decide, C1_resolution_policy CREDENTIAL_SETS (some "office") (by decide)⟩

/-- A table on which every entry carries a non-null name, so the scan of
getCredentialCount never meets a sentinel. -/
def allNamedTable : CredTable := fun _ => ⟨some "x", some "s", some "p"⟩

/-- C2 counterexample: on a table whose first 1000 entries all carry a
non-null name, getCredentialCount silently returns the truncated count
1000. The return value is the only output of the operation (there is no
logging or abort anywhere in the code), so no error condition is
reported, contrary to the claim. -/
theorem C2_counterexample :
    WiFiCreds.getCredentialCount allNamedTable = 1000 :=
  WiFiCreds.count_eq_1000_of_allNamed allNamedTable (fun i _ => by simp [allNamedTable])

/-- C2 amended: scanning is capped at the safety bound of 1000 entries; a
table whose first 1000 entries all have non-absent names yields the
truncated count 1000 silently, and the count never exceeds 1000 on any
table. -/
theorem C2_silent_cap (table : CredTable)
    (h : ∀ i, i < 1000 → (table i).name ≠ none) :
    WiFiCreds.getCredentialCount table = 1000 ∧
    ∀ t : CredTable, WiFiCreds.getCredentialCount t ≤ 1000 :=
  ⟨WiFiCreds.count_eq_1000_of_allNamed table h,
   fun t => WiFiCreds.getCredentialCount_le_1000 t⟩

/-- C2 witness: the amended theorem at the all-named table. -/
theorem C2_witness :
    (∀ i, i < 1000 → (allNamedTable i).name ≠ none) ∧
    (WiFiCreds.getCredentialCount allNamedTable = 1000 ∧
      ∀ t : CredTable, WiFiCreds.getCredentialCount t ≤ 1000) :=
  ⟨fun i _ => by simp [allNamedTable],
   C2_silent_cap allNamedTable (fun i _ => by simp [allNamedTable])⟩

/-- C3: on a table whose first sentinel sits at index k within the safety
limit, getCredentialCount equals k, the number of leading records with a
non-absent name; the scan stops at the sentinel and the count never
exceeds the 1000-entry safety bound. -/
theorem C3_count_at_sentinel (table : CredTable) (k : Nat)
    (hs : SentinelAt table k) (hk : k ≤ 1000) :
    WiFiCreds.getCredentialCount table = k ∧
    WiFiCreds.getCredentialCount table ≤ 1000 :=
  ⟨WiFiCreds.count_eq_of_sentinelAt table k hs hk,
   WiFiCreds.getCredentialCount_le_1000 table⟩

/-- C3 witness: the count theorem at the concrete table of credentials.h,
whose sentinel sits at index 4. -/
theorem C3_witness :
    SentinelAt CREDENTIAL_SETS 4 ∧ 4 ≤ 1000 ∧
    (WiFiCreds.getCredentialCount CREDENTIAL_SETS = 4 ∧
      WiFiCreds.getCredentialCount CREDENTIAL_SETS ≤ 1000) :=
  ⟨⟨by decide, by decide⟩, by decide,
   C3_count_at_sentinel CREDENTIAL_SETS 4 ⟨by decide, by decide⟩ (by decide)⟩

/-- C4: for a name absent from a non-empty table, getSSID with that name
equals getSSID with a null name (both give the ssid of the default record
at index 0), while hasCredential on that name is false. -/
theorem C4_fallback_vs_hasCredential (table : CredTable) (n : String)
    (habs : ∀ i, i < WiFiCreds.getCredentialCount table → (table i).name ≠ some n)
    (hne : 0 < WiFiCreds.getCredentialCount table) :
    WiFiCreds.getSSID table (some n) = WiFiCreds.getSSID table none ∧
    WiFiCreds.getSSID table none = (table 0).ssid ∧
    WiFiCreds.hasCredential table (some n) = false := by
  have hf : WiFiCreds.findCredential table (some n) = none :=
    WiFiCreds.findCredential_none_of_absent table n habs
  have hd : WiFiCreds.getDefaultCredential table = some (table 0) := by
    unfold WiFiCreds.getDefaultCredential
    rw [if_pos hne]
  refine ⟨?_, ?_, ?_⟩
  · rw [WiFiCreds.getSSID_eq_resolve, WiFiCreds.getSSID_eq_resolve,
      WiFiCreds.resolveCred_eq_specResolve, WiFiCreds.resolveCred_eq_specResolve]
    simp [specResolve, hf]
  · rw [WiFiCreds.getSSID_eq_resolve, WiFiCreds.resolveCred_eq_specResolve]
    simp [specResolve, hd]
  · simp [WiFiCreds.hasCredential, hf]

/-- C4 witness: the fallback theorem at the concrete table with the absent
name nope, as in the spec scenario. -/
theorem C4_witness :
    (∀ i, i < WiFiCreds.getCredentialCount CREDENTIAL_SETS →
      (CREDENTIAL_SETS i).name ≠ some "nope") ∧
    0 < WiFiCreds.getCredentialCount CREDENTIAL_SETS ∧
    (WiFiCreds.getSSID CREDENTIAL_SETS (some "nope")
        = WiFiCreds.getSSID CREDENTIAL_SETS none ∧
      WiFiCreds.getSSID CREDENTIAL_SETS none = (CREDENTIAL_SETS 0).ssid ∧
      WiFiCreds.hasCredential CREDENTIAL_SETS (some "nope") = false) :=
  ⟨by decide, by decide,
   C4_fallback_vs_hasCredential CREDENTIAL_SETS "nope" (by decide) (by decide)⟩

/-- The table used by the C5 counterexample: one real record whose name is
the empty string, then the sentinel. -/
def emptyNameTable : CredTable := fun i =>
  match i with
  | 0 => ⟨some "", some "EmptySSID", some "EmptyPass"⟩
  | _ => ⟨none, none, none⟩

/-- C5 counterexample: the claim says findCredential returns not-found
when the name is empty, but on a table holding a record whose name is the
empty string, findCredential applied to the empty string returns that
record. The code only special-cases the null pointer, never the empty
string. -/
theorem C5_counterexample :
    WiFiCreds.findCredential emptyNameTable (some "") ≠ none ∧
    WiFiCreds.findCredential emptyNameTable (some "")
      = some ⟨some "", some "EmptySSID", some "EmptyPass"⟩ :=
  ⟨by decide, by decide⟩

/-- C5 amended: findCredential scans linearly and returns the first record
(lowest index) whose name matches exactly and case-sensitively, so with
duplicate names the first match wins; it returns not-found when the name
is absent (the null pointer) or when no record strictly before the
sentinel matches. An empty-string name is not special: it is compared
like any other name. -/
theorem C5_find_first_match (table : CredTable) (k : Nat)
    (hs : SentinelAt table k) (hk : k ≤ 1000) :
    WiFiCreds.findCredential table none = none ∧
    (∀ n m, m < k → (table m).name = some n →
      (∀ j, j < m → (table j).name ≠ some n) →
      WiFiCreds.findCredential table (some n) = some (table m)) ∧
    (∀ n, (∀ i, i < k → (table i).name ≠ some n) →
      WiFiCreds.findCredential table (some n) = none) := by
  have hc : WiFiCreds.getCredentialCount table = k :=
    WiFiCreds.count_eq_of_sentinelAt table k hs hk
  refine ⟨rfl, ?_, ?_⟩
  · intro n m hm hname hfirst
    exact WiFiCreds.findCredential_first table n m (by omega) hname hfirst
  · intro n h
    exact WiFiCreds.findCredential_none_of_absent table n (fun i hi => h i (by omega))

/-- C5 witness: the amended find theorem at the concrete table: a null
name and an unmatched name give not-found, and guest returns the record
at index 2. -/
theorem C5_witness :
    SentinelAt CREDENTIAL_SETS 4 ∧
    WiFiCreds.findCredential CREDENTIAL_SETS none = none ∧
    WiFiCreds.findCredential CREDENTIAL_SETS (some "guest") = some (CREDENTIAL_SETS 2) ∧
    WiFiCreds.findCredential CREDENTIAL_SETS (some "nope") = none := by
  have hs : SentinelAt CREDENTIAL_SETS 4 := ⟨by decide, by decide⟩
  have h := C5_find_first_match CREDENTIAL_SETS 4 hs (by decide)
  exact ⟨hs, h.1, h.2.1 "guest" 2 (by decide) (by decide) (by decide),
    h.2.2 "nope" (by decide)⟩

/-- C6: isValid is true exactly when both getSSID and getPassword resolve
to non-null strings that are both non-empty. -/
theorem C6_isValid_iff (table : CredTable) (name : Option String) :
    WiFiCreds.isValid table name = true ↔
      ((∃ s, WiFiCreds.getSSID table name = some s ∧ s ≠ "") ∧
       (∃ p, WiFiCreds.getPassword table name = some p ∧ p ≠ "")) := by
  cases hs : WiFiCreds.getSSID table name with
  | none => simp [WiFiCreds.isValid, hs]
  | some s =>
    cases hp : WiFiCreds.getPassword table name with
    | none => simp [WiFiCreds.isValid, hs, hp]
    | some p =>
      by_cases hse : s = ""
      · simp [WiFiCreds.isValid, hs, hp, hse]
      · by_cases hpe : p = ""
        · simp [WiFiCreds.isValid, hs, hp, hpe]
        · simp [WiFiCreds.isValid, hs, hp, hse, hpe, string_length_eq_zero_iff]

/-- C7: getCredentialName returns the (non-null) name of the record at
index i exactly when i is below getCredentialCount, and returns null for
every index at or beyond the count. -/
theorem C7_nameAt (table : CredTable) (i : Nat) :
    (i < WiFiCreds.getCredentialCount table →
      WiFiCreds.getCredentialName table i = (table i).name ∧
      WiFiCreds.getCredentialName table i ≠ none) ∧
    (WiFiCreds.getCredentialCount table ≤ i →
      WiFiCreds.getCredentialName table i = none) := by
  constructor
  · intro h
    have hn := WiFiCreds.name_ne_none_of_lt_count table i h
    constructor
    · simp only [WiFiCreds.getCredentialName]
      rw [if_pos h]
    · simp only [WiFiCreds.getCredentialName]
      rw [if_pos h]
      exact hn
  · intro h
    simp only [WiFiCreds.getCredentialName]
    rw [if_neg (by omega)]

/-- C7 witness: the indexed-access theorem at the concrete table, at the
valid index 1 and the out-of-range index 9. -/
theorem C7_witness :
    (1 < WiFiCreds.getCredentialCount CREDENTIAL_SETS ∧
      WiFiCreds.getCredentialName CREDENTIAL_SETS 1 = (CREDENTIAL_SETS 1).name ∧
      WiFiCreds.getCredentialName CREDENTIAL_SETS 1 ≠ none) ∧
    (WiFiCreds.getCredentialCount CREDENTIAL_SETS ≤ 9 ∧
      WiFiCreds.getCredentialName CREDENTIAL_SETS 9 = none) :=
  ⟨⟨by decide, (C7_nameAt CREDENTIAL_SETS 1).1 (by decide)⟩,
   ⟨by decide, (C7_nameAt CREDENTIAL_SETS 9).2 (by decide)⟩⟩

/-- C8: on a sentinel-terminated table no lookup returns the sentinel or a
field of it: every record returned by findCredential or
getDefaultCredential, every name returned by getCredentialName, and every
ssid or password returned by getSSID or getPassword comes from a record
at an index strictly before the sentinel. -/
theorem C8_no_sentinel_escape (table : CredTable) (k : Nat)
    (hs : SentinelAt table k) (hk : k ≤ 1000) :
    (∀ name r, WiFiCreds.findCredential table name = some r →
      ∃ i, i < k ∧ r = table i) ∧
    (∀ i s, WiFiCreds.getCredentialName table i = some s →
      i < k ∧ (table i).name = some s) ∧
    (∀ r, WiFiCreds.getDefaultCredential table = some r → 0 < k ∧ r = table 0) ∧
    (∀ name s, WiFiCreds.getSSID table name = some s →
      ∃ i, i < k ∧ (table i).ssid = some s) ∧
    (∀ name s, WiFiCreds.getPassword table name = some s →
      ∃ i, i < k ∧ (table i).password = some s) := by
  have hc : WiFiCreds.getCredentialCount table = k :=
    WiFiCreds.count_eq_of_sentinelAt table k hs hk
  refine ⟨?_, ?_, ?_, ?_, ?_⟩
  · rintro (_ | n) r hr
    · exact absurd hr (by simp [WiFiCreds.findCredential])
    · obtain ⟨m, hm, h3, _⟩ := WiFiCreds.findCredential_some_spec table n r hr
      exact ⟨m, by omega, h3⟩
  · intro i s h
    simp only [WiFiCreds.getCredentialName] at h
    by_cases hic : i < WiFiCreds.getCredentialCount table
    · rw [if_pos hic] at h
      exact ⟨by omega, h⟩
    · rw [if_neg hic] at h
      exact absurd h (by simp)
  · intro r h
    obtain ⟨h1, h2⟩ := WiFiCreds.getDefaultCredential_some table r h
    exact ⟨by omega, h2⟩
  · intro name s h
    rw [WiFiCreds.getSSID_eq_resolve] at h
    cases hr : resolveCred table name with
    | none =>
      rw [hr] at h
      exact absurd h (by simp)
    | some r =>
      rw [hr] at h
      obtain ⟨i, hi, hri⟩ := WiFiCreds.resolveCred_mem table name r hr
      refine ⟨i, by omega, ?_⟩
      rw [← hri]
      simpa using h
  · intro name s h
    rw [WiFiCreds.getPassword_eq_resolve] at h
    cases hr : resolveCred table name with
    | none =>
      rw [hr] at h
      exact absurd h (by simp)
    | some r =>
      rw [hr] at h
      obtain ⟨i, hi, hri⟩ := WiFiCreds.resolveCred_mem table name r hr
      refine ⟨i, by omega, ?_⟩
      rw [← hri]
      simpa using h

/-- C8 witness: the no-sentinel theorem at the concrete table: the record
returned for guest and the ssid returned for a null name both come from
indices strictly before the sentinel at index 4. -/
theorem C8_witness :
    SentinelAt CREDENTIAL_SETS 4 ∧
    (∃ i, i < 4 ∧
      (⟨some "guest", some "GuestWiFi", some "GuestPassword789"⟩ : CredentialSet)
        = CREDENTIAL_SETS i) ∧
    (∃ i, i < 4 ∧ (CREDENTIAL_SETS i).ssid = some "MyHomeWiFi") := by
  have hs : SentinelAt CREDENTIAL_SETS 4 := ⟨by decide, by decide⟩
  have h := C8_no_sentinel_escape CREDENTIAL_SETS 4 hs (by decide)
  exact ⟨hs, h.1 (some "guest") _ (by decide),
    h.2.2.2.1 none "MyHomeWiFi" (by decide)⟩

/-- C9: getSSID and getPassword resolve the same record: for every input
name either both return null, or one single table record supplies both the
returned ssid and the returned password; the pair never mixes fields of
two different records. -/
theorem C9_same_record (table : CredTable) (name : Option String) :
    (WiFiCreds.getSSID table name = none ∧ WiFiCreds.getPassword table name = none) ∨
    (∃ i, i < WiFiCreds.getCredentialCount table ∧
      WiFiCreds.getSSID table name = (table i).ssid ∧
      WiFiCreds.getPassword table name = (table i).password) := by
  rw [WiFiCreds.getSSID_eq_resolve, WiFiCreds.getPassword_eq_resolve]
  cases hr : resolveCred table name with
  | none =>
    left
    simp
  | some r =>
    right
    obtain ⟨i, hi, hri⟩ := WiFiCreds.resolveCred_mem table name r hr
    subst hri
    exact ⟨i, hi, by simp, by simp⟩

/-- C10: with real records carrying non-null ssid and password fields
(the spec data model for valid entries), getSSID and getPassword return
null exactly when the table is empty, for every input name including the
null name and names matching no record. -/
theorem C10_none_iff_empty (table : CredTable)
    (hwf : ∀ i, i < WiFiCreds.getCredentialCount table →
      (table i).ssid ≠ none ∧ (table i).password ≠ none)
    (name : Option String) :
    (WiFiCreds.getSSID table name = none ↔ WiFiCreds.getCredentialCount table = 0) ∧
    (WiFiCreds.getPassword table name = none ↔ WiFiCreds.getCredentialCount table = 0) :=
  ⟨WiFiCreds.getSSID_eq_none_iff table name (fun i hi => (hwf i hi).1),
   WiFiCreds.getPassword_eq_none_iff table name (fun i hi => (hwf i hi).2)⟩

/-- C10 witness: the null-iff-empty theorem at the concrete non-empty
table with a name matching no record. -/
theorem C10_witness :
    (∀ i, i < WiFiCreds.getCredentialCount CREDENTIAL_SETS →
      (CREDENTIAL_SETS i).ssid ≠ none ∧ (CREDENTIAL_SETS i).password ≠ none) ∧
    ((WiFiCreds.getSSID CREDENTIAL_SETS (some "missing") = none ↔
        WiFiCreds.getCredentialCount CREDENTIAL_SETS = 0) ∧
     (WiFiCreds.getPassword CREDENTIAL_SETS (some "missing") = none ↔
        WiFiCreds.getCredentialCount CREDENTIAL_SETS = 0)) :=
  ⟨by decide, C10_none_iff_empty CREDENTIAL_SETS (by decide) (some "missing")⟩
